import Mathlib

/-!
Shallow embedding of the sync & reconciliation engine of the
lucrative-growth-app repository (Turn14 distributor sync for a Shopify
storefront), together with proofs about the properties claimed of it.

All operations of the source are scoped to one shop, so the embedding
models a single shop's stores: every Prisma query in the source filters
on the shop key and the model elides that fixed key.  Monetary values
(stored as JS numbers) are modelled as exact rationals.
-/

namespace GrowthApp

/-! ## Data model -/

/-- Embedding of a CustomerVehicle row (the fields read by the
compatibility check in vehicle-garage.server.js). -/
structure Vehicle where
  year : Int
  make : String
  model : String
  submodel : Option String
  deriving DecidableEq, Repr

/-- Embedding of a Turn14VehicleCompatibility row.  The product is
identified by its turn14Sku (unique per shop), matching the
`product: { turn14Sku }` relation filter used by the source queries. -/
structure CompatEdge where
  sku : String
  year : Int
  make : String
  model : String
  submodel : Option String
  isUniversal : Bool
  deriving DecidableEq, Repr

/-- Embedding of a Turn14ImportedProduct row (the fields the sync engine
reads and writes). -/
structure TrackedProduct where
  sku : String
  inventoryQuantity : Int
  originalPrice : ℚ
  currentPrice : ℚ
  priceMarkup : ℚ
  syncStatus : String
  syncErrors : Option String
  deriving DecidableEq, Repr

/-- Embedding of the Turn14Config row; only presence and the selected
brand list matter to the claims. -/
structure Turn14Config where
  selectedBrands : List String
  deriving DecidableEq, Repr

/-- Decidable equality for Except results, so concrete runs of the
fallible operations can be checked by evaluation. -/
instance {ε α : Type} [DecidableEq ε] [DecidableEq α] : DecidableEq (Except ε α) := fun x y =>
  match x, y with
  | .ok a, .ok b =>
      if h : a = b then .isTrue (by rw [h])
      else .isFalse (by intro hc; cases hc; exact h rfl)
  | .ok _, .error _ => .isFalse (fun hc => Except.noConfusion hc)
  | .error _, .ok _ => .isFalse (fun hc => Except.noConfusion hc)
  | .error e, .error f =>
      if h : e = f then .isTrue (by rw [h])
      else .isFalse (by intro hc; cases hc; exact h rfl)

/-! ## Vehicle compatibility check (vehicle-garage.server.js,
    VehicleGarageService.checkProductCompatibility) -/

/-- Exact-match predicate of the first findFirst query: the edge belongs
to the product with the given SKU and matches the vehicle's year, make
and model; the submodel is additionally constrained only when the vehicle
has one (the source spreads `vehicle.submodel && { submodel }` into the
where clause). -/
def vehicleEdgeMatch (v : Vehicle) (sku : String) (e : CompatEdge) : Bool :=
  e.sku == sku && e.year == v.year && e.make == v.make && e.model == v.model &&
    (match v.submodel with
     | none => true
     | some s => e.submodel == some s)

/-- Predicate of the second findFirst query: a universal-fit edge of the
product with the given SKU. -/
def universalEdgeMatch (sku : String) (e : CompatEdge) : Bool :=
  e.sku == sku && e.isUniversal

/-- Shape of the object returned by checkProductCompatibility. -/
structure CompatCheck where
  compatible : Bool
  isUniversal : Bool
  reason : Option String
  deriving DecidableEq, Repr

/-- Embedding of VehicleGarageService.checkProductCompatibility: look the
vehicle up, try an exact-match edge, fall back to a universal edge, and
otherwise report incompatibility with a reason. -/
def checkProductCompatibility (edges : List CompatEdge) (veh : Option Vehicle)
    (sku : String) : CompatCheck :=
  match veh with
  | none => ⟨false, false, some "Vehicle not found"⟩
  | some v =>
    match edges.find? (vehicleEdgeMatch v sku) with
    | some _ => ⟨true, false, none⟩
    | none =>
      match edges.find? (universalEdgeMatch sku) with
      | some _ => ⟨true, true, none⟩
      | none => ⟨false, false, some "No compatibility data found"⟩

/-! ## Scheduler (sync-engine.server.js, SyncScheduleManager, and the
    background SyncScheduler) -/

/-- Model of a JS Date in local time: a calendar-day number plus the
number of milliseconds since local midnight. -/
structure JSDate where
  day : Int
  msOfDay : Nat
  deriving DecidableEq, Repr

/-- Milliseconds in one day. -/
def msPerDay : Nat := 86400000

/-- Milliseconds in one hour. -/
def msPerHour : Nat := 3600000

/-- Local 02:00 as milliseconds since midnight. -/
def twoAM : Nat := 2 * msPerHour

/-- Add a duration in milliseconds to a date, rolling over calendar days
(models Date arithmetic via getTime). -/
def addMs (d : JSDate) (delta : Nat) : JSDate :=
  ⟨d.day + (((d.msOfDay + delta) / msPerDay : Nat) : Int), (d.msOfDay + delta) % msPerDay⟩

/-- Total milliseconds of a date on the linear local timeline. -/
def toMs (d : JSDate) : Int :=
  d.day * (msPerDay : Int) + (d.msOfDay : Int)

/-- Embedding of SyncScheduleManager.calculateNextRun: hourly adds one
hour to now; daily moves to the next calendar day and sets the clock to
02:00; weekly moves seven days ahead at 02:00; manual (and any unknown
frequency) yields null.  The cronSchedule argument of the source is only
a TODO that falls through to this frequency switch, so it is elided. -/
def calculateNextRun (frequency : String) (now : JSDate) : Option JSDate :=
  match frequency with
  | "hourly" => some (addMs now msPerHour)
  | "daily" => some ⟨now.day + 1, twoAM⟩
  | "weekly" => some ⟨now.day + 7, twoAM⟩
  | _ => none

/-- Embedding of a Turn14SyncSchedule row (the fields the scheduler
reads and writes). -/
structure SyncSchedule where
  sid : String
  frequency : String
  lastRun : Option JSDate
  nextRun : Option JSDate
  deriving DecidableEq, Repr

/-- Embedding of SyncScheduleManager.markScheduleRun applied to a found
schedule: set lastRun to now and recompute nextRun from the frequency. -/
def markScheduleRun (now : JSDate) (sched : SyncSchedule) : SyncSchedule :=
  { sched with lastRun := some now, nextRun := calculateNextRun sched.frequency now }

/-- Aggregate counters returned by the batch sync operations. -/
structure SyncResult where
  totalItems : Nat
  processedItems : Nat
  successItems : Nat
  failedItems : Nat
  errors : List (String × String)
  deriving DecidableEq, Repr

/-- Embedding of a Turn14SyncJob row (the fields relevant to the
scheduler claims). -/
structure SyncJobRec where
  scheduleId : Option String
  status : String
  errorMessage : Option String
  deriving DecidableEq, Repr

/-- Outcome of the sync operation triggered by SyncEngine.runSync: the
chosen sync either returns a result object (its per-item failures
recorded inside the result) or throws. -/
inductive SyncOutcome where
  | completes (res : SyncResult)
  | throws (msg : String)
  deriving DecidableEq, Repr

/-- Embedding of the job bookkeeping of SyncEngine.runSync: a job row is
appended as completed when the operation returns, or as failed (with the
error message) when it throws, in which case the error is re-raised. -/
def runSync (outcome : SyncOutcome) (scheduleId : Option String)
    (jobs : List SyncJobRec) : List SyncJobRec × Except String SyncResult :=
  match outcome with
  | .completes res => (jobs ++ [⟨scheduleId, "completed", none⟩], .ok res)
  | .throws msg => (jobs ++ [⟨scheduleId, "failed", some msg⟩], .error msg)

/-- Embedding of SyncScheduler.runScheduledSync: with no Turn14 config
the function logs and returns; otherwise it runs the sync and, only when
runSync returns normally, marks the schedule as run; when runSync throws,
the catch block records one more failed job row and the schedule is left
untouched. -/
def runScheduledSync (config : Option Turn14Config) (outcome : SyncOutcome)
    (now : JSDate) (sched : SyncSchedule) (jobs : List SyncJobRec) :
    SyncSchedule × List SyncJobRec :=
  match config with
  | none => (sched, jobs)
  | some _ =>
    match runSync outcome (some sched.sid) jobs with
    | (jobs', .ok _) => (markScheduleRun now sched, jobs')
    | (jobs', .error msg) =>
        (sched, jobs' ++ [⟨some sched.sid, "failed", some msg⟩])

/-! ## Garage service (vehicle-garage.server.js,
    VehicleGarageService.addVehicle and updateVehicle) -/

/-- Embedding of a CustomerVehicle row of a garage (only the identity
and the primary flag matter to the claims). -/
structure GarageVehicle where
  gvid : String
  isPrimary : Bool
  deriving DecidableEq, Repr

/-- Embedding of a CustomerVehicleGarage row with its vehicles. -/
structure Garage where
  maxVehicles : Nat
  vehicles : List GarageVehicle
  deriving DecidableEq, Repr

/-- Schema default for CustomerVehicleGarage.maxVehicles. -/
def defaultMaxVehicles : Nat := 5

/-- Garage service state: the garage plus the maintenance reminders
created for its vehicles, as (vehicleId, reminder type) pairs. -/
structure GarageState where
  garage : Garage
  reminders : List (String × String)
  deriving DecidableEq, Repr

/-- Typed rendering of the errors the garage service throws. -/
inductive GarageError where
  | capacityError (maxVehicles : Nat)
  | notFound
  deriving DecidableEq, Repr

/-- The updateMany write that unsets isPrimary on a set of vehicles. -/
def clearPrimary (vs : List GarageVehicle) : List GarageVehicle :=
  vs.map (fun v => { v with isPrimary := false })

/-- Types of the three default maintenance reminders seeded for a new
vehicle by createDefaultMaintenanceReminders. -/
def defaultReminderTypes : List String :=
  ["oil_change", "tire_rotation", "brake_inspection"]

/-- Payload of addVehicle (only the fields the claims mention). -/
structure NewVehicleData where
  gvid : String
  isPrimary : Bool
  deriving DecidableEq, Repr

/-- Embedding of VehicleGarageService.addVehicle: reject at capacity
before any write; otherwise promote the first vehicle of an empty garage
to primary, unset other primaries when the new vehicle is primary, create
the vehicle, and seed its default maintenance reminders. -/
def addVehicle (st : GarageState) (data : NewVehicleData) :
    GarageState × Except GarageError GarageVehicle :=
  let g := st.garage
  if g.vehicles.length ≥ g.maxVehicles then
    (st, .error (.capacityError g.maxVehicles))
  else
    let isP := g.vehicles.length == 0 || data.isPrimary
    let base := if isP then clearPrimary g.vehicles else g.vehicles
    let v : GarageVehicle := ⟨data.gvid, isP⟩
    ({ garage := { g with vehicles := base ++ [v] },
       reminders := st.reminders ++ defaultReminderTypes.map (fun t => (data.gvid, t)) },
     .ok v)

/-- Update payload for updateVehicle; a missing isPrimary key leaves the
flag untouched (the source spreads updateData into the update call). -/
structure VehicleUpdate where
  isPrimary : Option Bool
  deriving DecidableEq, Repr

/-- Application of the update payload to the targeted vehicle row. -/
def applyUpdate (v : GarageVehicle) (u : VehicleUpdate) : GarageVehicle :=
  match u.isPrimary with
  | none => v
  | some b => { v with isPrimary := b }

/-- Embedding of VehicleGarageService.updateVehicle: fail when the
vehicle is not in the garage; when the update marks the vehicle primary,
first unset isPrimary on every other vehicle of the garage, then apply
the update to the vehicle itself. -/
def updateVehicle (st : GarageState) (vid : String) (u : VehicleUpdate) :
    GarageState × Except GarageError Unit :=
  let g := st.garage
  match g.vehicles.find? (fun v => v.gvid == vid) with
  | none => (st, .error .notFound)
  | some _ =>
    let cleared := if u.isPrimary = some true then
        g.vehicles.map (fun v => if v.gvid == vid then v else { v with isPrimary := false })
      else g.vehicles
    let updated := cleared.map (fun v => if v.gvid == vid then applyUpdate v u else v)
    ({ st with garage := { g with vehicles := updated } }, .ok ())

/-- Garage invariant of the spec: at most one vehicle is primary. -/
def atMostOnePrimary (vs : List GarageVehicle) : Prop :=
  vs.countP (fun v => v.isPrimary) ≤ 1

instance (vs : List GarageVehicle) : Decidable (atMostOnePrimary vs) := by
  unfold atMostOnePrimary; infer_instance

/-! ## Batch sync operations (sync-engine.server.js, SyncEngine)

The distributor API and the storefront publisher are oracles: per SKU
they either return a payload (Option, none when the response carries no
items) or throw with a message.  Timestamps (lastSynced) are not
modelled; storefront writes are recorded as an effect list. -/

/-- The catch-block update that marks one tracked product as failed:
syncStatus becomes error and syncErrors is overwritten with the latest
message. -/
def setProductError (ps : List TrackedProduct) (sku msg : String) :
    List TrackedProduct :=
  ps.map (fun p => if p.sku == sku then
    { p with syncStatus := "error", syncErrors := some msg } else p)

/-- The tracking-record update after a successful inventory write. -/
def setProductInventory (ps : List TrackedProduct) (sku : String) (q : Int) :
    List TrackedProduct :=
  ps.map (fun p => if p.sku == sku then
    { p with inventoryQuantity := q, syncStatus := "active" } else p)

/-- The findMany query both batch syncs start from: tracked products of
the shop whose syncStatus is active. -/
def activeProducts (store : List TrackedProduct) : List TrackedProduct :=
  store.filter (fun p => p.syncStatus == "active")

/-- Body of the syncInventory for-loop: one iteration per product of the
snapshot, with the per-item try/catch of the source. -/
def syncInventoryLoop (fetch : String → Except String (Option Int)) :
    List TrackedProduct → List TrackedProduct → List (String × Int) → SyncResult →
      List TrackedProduct × List (String × Int) × SyncResult
  | [], store, writes, res => (store, writes, res)
  | p :: rest, store, writes, res =>
    match fetch p.sku with
    | .error msg =>
        syncInventoryLoop fetch rest (setProductError store p.sku msg) writes
          { res with processedItems := res.processedItems + 1,
                     failedItems := res.failedItems + 1,
                     errors := res.errors ++ [(p.sku, msg)] }
    | .ok none =>
        syncInventoryLoop fetch rest store writes
          { res with processedItems := res.processedItems + 1,
                     successItems := res.successItems + 1 }
    | .ok (some q) =>
        if q == p.inventoryQuantity then
          syncInventoryLoop fetch rest store writes
            { res with processedItems := res.processedItems + 1,
                       successItems := res.successItems + 1 }
        else
          syncInventoryLoop fetch rest (setProductInventory store p.sku q)
            (writes ++ [(p.sku, q)])
            { res with processedItems := res.processedItems + 1,
                       successItems := res.successItems + 1 }

/-- Embedding of SyncEngine.syncInventory: missing configuration throws
before any item; otherwise every active product is processed with
per-item failure isolation and the batch returns the updated store, the
storefront inventory writes, and the aggregate result. -/
def syncInventory (config : Option Turn14Config)
    (fetch : String → Except String (Option Int))
    (store : List TrackedProduct) :
    Except String (List TrackedProduct × List (String × Int) × SyncResult) :=
  match config with
  | none => .error "Turn 14 configuration not found"
  | some _ =>
    .ok (syncInventoryLoop fetch (activeProducts store) store []
      ⟨(activeProducts store).length, 0, 0, 0, []⟩)

/-- The newPrice of syncPricing: the fetched price, falling back to the
stored originalPrice when the fetched price is falsy (zero). -/
def pricingNewPrice (p : TrackedProduct) (q : ℚ) : ℚ :=
  if q = 0 then p.originalPrice else q

/-- The marked-up final price of syncPricing. -/
def pricingFinalPrice (p : TrackedProduct) (q : ℚ) : ℚ :=
  pricingNewPrice p q * (1 + p.priceMarkup / 100)

/-- The drift test of syncPricing: write only when the distributor price
differs from the stored originalPrice or the computed final price differs
from the stored currentPrice. -/
def pricingChanged (p : TrackedProduct) (q : ℚ) : Bool :=
  pricingNewPrice p q != p.originalPrice || pricingFinalPrice p q != p.currentPrice

/-- The tracking-record update after a successful pricing write. -/
def setProductPricing (ps : List TrackedProduct) (sku : String) (orig fin : ℚ) :
    List TrackedProduct :=
  ps.map (fun p => if p.sku == sku then
    { p with originalPrice := orig, currentPrice := fin, syncStatus := "active" } else p)

/-- Body of the syncPricing for-loop. -/
def syncPricingLoop (fetch : String → Except String (Option ℚ)) :
    List TrackedProduct → List TrackedProduct → List (String × ℚ) → SyncResult →
      List TrackedProduct × List (String × ℚ) × SyncResult
  | [], store, writes, res => (store, writes, res)
  | p :: rest, store, writes, res =>
    match fetch p.sku with
    | .error msg =>
        syncPricingLoop fetch rest (setProductError store p.sku msg) writes
          { res with processedItems := res.processedItems + 1,
                     failedItems := res.failedItems + 1,
                     errors := res.errors ++ [(p.sku, msg)] }
    | .ok none =>
        syncPricingLoop fetch rest store writes
          { res with processedItems := res.processedItems + 1,
                     successItems := res.successItems + 1 }
    | .ok (some q) =>
        if pricingChanged p q then
          syncPricingLoop fetch rest
            (setProductPricing store p.sku (pricingNewPrice p q) (pricingFinalPrice p q))
            (writes ++ [(p.sku, pricingFinalPrice p q)])
            { res with processedItems := res.processedItems + 1,
                       successItems := res.successItems + 1 }
        else
          syncPricingLoop fetch rest store writes
            { res with processedItems := res.processedItems + 1,
                       successItems := res.successItems + 1 }

/-- Embedding of SyncEngine.syncPricing, same shape as syncInventory;
the writes list records the storefront updatePrice calls. -/
def syncPricing (config : Option Turn14Config)
    (fetch : String → Except String (Option ℚ))
    (store : List TrackedProduct) :
    Except String (List TrackedProduct × List (String × ℚ) × SyncResult) :=
  match config with
  | none => .error "Turn 14 configuration not found"
  | some _ =>
    .ok (syncPricingLoop fetch (activeProducts store) store []
      ⟨(activeProducts store).length, 0, 0, 0, []⟩)

/-- A distributor inventory item as consumed by syncNewProducts. -/
structure FetchedProduct where
  pid : String
  brand : String
  price : ℚ
  inventory : Int
  deriving DecidableEq, Repr

/-- The TrackedProduct row inserted for a newly imported product. -/
def mkTrackedProduct (item : FetchedProduct) (markup : ℚ) : TrackedProduct :=
  { sku := item.pid, inventoryQuantity := item.inventory,
    originalPrice := item.price,
    currentPrice := item.price * (1 + markup / 100),
    priceMarkup := markup, syncStatus := "active", syncErrors := none }

/-- Inner per-item loop of syncNewProducts over one brand's items: skip
SKUs present in the up-front existing-SKU set; import the rest, where the
storefront import may throw and the tracked-product insert throws on a
(shop, turn14Sku) unique-key violation, both caught per item. -/
def newProductsItemLoop (importToShopify : String → Except String Unit)
    (markup : ℚ) (existingSKUs : List String) :
    List FetchedProduct → List TrackedProduct → SyncResult →
      List TrackedProduct × SyncResult
  | [], store, res => (store, res)
  | item :: rest, store, res =>
    if existingSKUs.contains item.pid then
      newProductsItemLoop importToShopify markup existingSKUs rest store
        { res with processedItems := res.processedItems + 1 }
    else
      match importToShopify item.pid with
      | .error msg =>
          newProductsItemLoop importToShopify markup existingSKUs rest store
            { res with processedItems := res.processedItems + 1,
                       failedItems := res.failedItems + 1,
                       errors := res.errors ++ [(item.pid, msg)] }
      | .ok _ =>
          if store.any (fun p => p.sku == item.pid) then
            newProductsItemLoop importToShopify markup existingSKUs rest store
              { res with processedItems := res.processedItems + 1,
                         failedItems := res.failedItems + 1,
                         errors := res.errors ++
                           [(item.pid, "Unique constraint failed on shop_turn14Sku")] }
          else
            newProductsItemLoop importToShopify markup existingSKUs rest
              (store ++ [mkTrackedProduct item markup])
              { res with processedItems := res.processedItems + 1,
                         successItems := res.successItems + 1 }

/-- Outer per-brand loop of syncNewProducts: a brand whose listing call
throws contributes one error entry and no items; a response without items
is skipped; otherwise the brand's items are processed. -/
def newProductsBrandLoop (brandItems : String → Except String (Option (List FetchedProduct)))
    (importToShopify : String → Except String Unit) (markup : ℚ)
    (existingSKUs : List String) :
    List String → List TrackedProduct → SyncResult →
      List TrackedProduct × SyncResult
  | [], store, res => (store, res)
  | b :: rest, store, res =>
    match brandItems b with
    | .error msg =>
        newProductsBrandLoop brandItems importToShopify markup existingSKUs rest store
          { res with errors := res.errors ++ [(b, msg)] }
    | .ok none =>
        newProductsBrandLoop brandItems importToShopify markup existingSKUs rest store res
    | .ok (some items) =>
        let out := newProductsItemLoop importToShopify markup existingSKUs items store
          { res with totalItems := res.totalItems + items.length }
        newProductsBrandLoop brandItems importToShopify markup existingSKUs rest out.1 out.2

/-- Embedding of SyncEngine.syncNewProducts: throws before any item when
the configuration is missing or when no brands are selected; the dedup
set of existing SKUs is built once from the store before the loops. -/
def syncNewProducts (config : Option Turn14Config)
    (brandItems : String → Except String (Option (List FetchedProduct)))
    (importToShopify : String → Except String Unit) (markup : ℚ)
    (store : List TrackedProduct) :
    Except String (List TrackedProduct × SyncResult) :=
  match config with
  | none => .error "Turn 14 configuration not found"
  | some cfg =>
    if cfg.selectedBrands.isEmpty then
      .error "No brands selected for product sync"
    else
      .ok (newProductsBrandLoop brandItems importToShopify markup
        (store.map (fun p => p.sku)) cfg.selectedBrands store ⟨0, 0, 0, 0, []⟩)

/-! ## Compatibility sync (app.api.vehicles route file, YMMService) -/

/-- A compatibility row fetched from the distributor for one SKU. -/
structure FetchedCompat where
  year : Int
  make : String
  model : String
  submodel : Option String
  isUniversal : Bool
  deriving DecidableEq, Repr

/-- Natural key of the (productId, year, make, model, submodel) unique
constraint, with the product fixed. -/
def compatKey (e : CompatEdge) : Int × String × String × Option String :=
  (e.year, e.make, e.model, e.submodel)

/-- Key of a fetched row under the same constraint. -/
def rowKey (r : FetchedCompat) : Int × String × String × Option String :=
  (r.year, r.make, r.model, r.submodel)

/-- The CompatibilityEdge row created for a fetched item. -/
def toEdge (sku : String) (r : FetchedCompat) : CompatEdge :=
  ⟨sku, r.year, r.make, r.model, r.submodel, r.isUniversal⟩

/-- Counters returned by syncProductCompatibility. -/
structure CompatSyncCounts where
  processed : Nat
  created : Nat
  updated : Nat
  deriving DecidableEq, Repr

/-- The insert loop of syncProductCompatibility: each create throws on a
unique-key collision and the throw is caught and skipped (counters not
incremented); otherwise the edge is appended and both counters grow. -/
def insertCompatLoop (sku : String) :
    List FetchedCompat → List CompatEdge → Nat → Nat →
      List CompatEdge × Nat × Nat
  | [], edges, processed, created => (edges, processed, created)
  | r :: rest, edges, processed, created =>
    if edges.any (fun e => e.sku == sku && compatKey e == rowKey r) then
      insertCompatLoop sku rest edges processed created
    else
      insertCompatLoop sku rest (edges ++ [toEdge sku r]) (processed + 1) (created + 1)

/-- Embedding of YMMService.syncProductCompatibility: throws when the
configuration or the product is missing or when the fetch throws; returns
zero counts without touching the edges when the distributor response is
missing or lacks an items field (fetch = ok none); otherwise — including
an empty items array, which in the source passes the truthiness guard —
deletes every edge of the product and inserts the fetched rows. -/
def syncProductCompatibility (config : Option Turn14Config)
    (store : List TrackedProduct)
    (fetch : Except String (Option (List FetchedCompat)))
    (edges : List CompatEdge) (sku : String) :
    Except String (List CompatEdge × CompatSyncCounts) :=
  match config with
  | none => .error "Turn 14 configuration not found"
  | some _ =>
    if store.any (fun p => p.sku == sku) then
      match fetch with
      | .error msg => .error msg
      | .ok none => .ok (edges, ⟨0, 0, 0⟩)
      | .ok (some items) =>
        let cleared := edges.filter (fun e => !(e.sku == sku))
        let out := insertCompatLoop sku items cleared 0 0
        .ok (out.1, ⟨out.2.1, out.2.2, 0⟩)
    else
      .error ("Product not found: " ++ sku)

/-- Counters returned by bulkSyncCompatibility. -/
structure BulkCompatResult where
  processed : Nat
  successful : Nat
  failed : Nat
  errors : List (String × String)
  deriving DecidableEq, Repr

/-- Per-item loop of bulkSyncCompatibility with its try/catch. -/
def bulkSyncLoop (config : Option Turn14Config) (store : List TrackedProduct)
    (fetch : String → Except String (Option (List FetchedCompat))) :
    List TrackedProduct → List CompatEdge → BulkCompatResult →
      List CompatEdge × BulkCompatResult
  | [], edges, res => (edges, res)
  | p :: rest, edges, res =>
    match syncProductCompatibility config store (fetch p.sku) edges p.sku with
    | .ok out =>
        bulkSyncLoop config store fetch rest out.1
          { res with processed := res.processed + 1,
                     successful := res.successful + 1 }
    | .error msg =>
        bulkSyncLoop config store fetch rest edges
          { res with processed := res.processed + 1,
                     failed := res.failed + 1,
                     errors := res.errors ++ [(p.sku, msg)] }

/-- Embedding of YMMService.bulkSyncCompatibility: iterate over at most
limit active products with per-item failure isolation.  The function
performs no write to any TrackedProduct row (the source has no such
update in this path), so the store is returned unchanged alongside the
edges and counters. -/
def bulkSyncCompatibility (config : Option Turn14Config)
    (store : List TrackedProduct)
    (fetch : String → Except String (Option (List FetchedCompat)))
    (limit : Nat) (edges : List CompatEdge) :
    List TrackedProduct × List CompatEdge × BulkCompatResult :=
  let products := (activeProducts store).take limit
  (store, bulkSyncLoop config store fetch products edges ⟨0, 0, 0, []⟩)

end GrowthApp

namespace GrowthApp

/-- Helper: a find? query succeeds exactly when some list element
satisfies the predicate. -/
theorem find?_isSome_iff_exists {α : Type} (p : α → Bool) (l : List α) :
    (l.find? p).isSome = true ↔ ∃ x ∈ l, p x = true := by
  constructor
  · intro h
    rcases Option.isSome_iff_exists.mp h with ⟨a, ha⟩
    exact ⟨a, List.mem_of_find?_eq_some ha, List.find?_some ha⟩
  · intro ⟨x, hx, hpx⟩
    cases hfind : l.find? p with
    | some a => rfl
    | none => exact absurd hpx (by simpa using List.find?_eq_none.mp hfind x hx)

/-- C1: checkProductCompatibility returns compatible=true exactly when an
exact-match edge exists for the SKU, or no exact-match edge exists but a
universal edge does; otherwise it returns compatible=false with a reason
(both for an unmatched vehicle and for a missing vehicle), and an exact
match is preferred over the universal fallback (the result is not flagged
universal when an exact edge exists). -/
theorem checkProductCompatibility_two_tier (edges : List CompatEdge)
    (v : Vehicle) (sku : String) :
    ((checkProductCompatibility edges (some v) sku).compatible = true ↔
      ((∃ e ∈ edges, vehicleEdgeMatch v sku e = true) ∨
        ((¬ ∃ e ∈ edges, vehicleEdgeMatch v sku e = true) ∧
          ∃ e ∈ edges, universalEdgeMatch sku e = true))) ∧
    ((checkProductCompatibility edges (some v) sku).compatible = false →
      (checkProductCompatibility edges (some v) sku).reason ≠ none) ∧
    ((∃ e ∈ edges, vehicleEdgeMatch v sku e = true) →
      (checkProductCompatibility edges (some v) sku).isUniversal = false) ∧
    ((checkProductCompatibility edges none sku).compatible = false ∧
      (checkProductCompatibility edges none sku).reason ≠ none) := by
  have hexact := find?_isSome_iff_exists (vehicleEdgeMatch v sku) edges
  have huniv := find?_isSome_iff_exists (universalEdgeMatch sku) edges
  cases hf : edges.find? (vehicleEdgeMatch v sku) with
  | some e =>
    have hex : ∃ x ∈ edges, vehicleEdgeMatch v sku x = true := by
      rw [← hexact, hf]; rfl
    simp only [checkProductCompatibility, hf]
    exact ⟨iff_of_true trivial (Or.inl hex), fun h => Bool.noConfusion h, fun _ => trivial,
      trivial, fun h => Option.noConfusion h⟩
  | none =>
    have hnex : ¬ ∃ x ∈ edges, vehicleEdgeMatch v sku x = true := by
      rw [← hexact, hf]; simp
    cases hu : edges.find? (universalEdgeMatch sku) with
    | some e =>
      have hue : ∃ x ∈ edges, universalEdgeMatch sku x = true := by
        rw [← huniv, hu]; rfl
      simp only [checkProductCompatibility, hf, hu]
      exact ⟨iff_of_true trivial (Or.inr ⟨hnex, hue⟩), fun h => Bool.noConfusion h,
        fun h => absurd h hnex, trivial, fun h => Option.noConfusion h⟩
    | none =>
      have hnue : ¬ ∃ x ∈ edges, universalEdgeMatch sku x = true := by
        rw [← huniv, hu]; simp
      simp only [checkProductCompatibility, hf, hu]
      refine ⟨?_, fun _ h => Option.noConfusion h, fun h => absurd h hnex,
        trivial, fun h => Option.noConfusion h⟩
      refine iff_of_false (fun h => Bool.noConfusion h) ?_
      rintro (h | ⟨_, h⟩)
      · exact hnex h
      · exact hnue h

/-- C1 witness: a vehicle with an exact edge for the SKU is reported
compatible. -/
theorem checkProductCompatibility_two_tier_witness :
    (checkProductCompatibility [⟨"P1", 2019, "BMW", "M3", none, false⟩]
      (some ⟨2019, "BMW", "M3", none⟩) "P1").compatible = true := by
  have h := checkProductCompatibility_two_tier
    [⟨"P1", 2019, "BMW", "M3", none, false⟩] ⟨2019, "BMW", "M3", none⟩ "P1"
  exact h.1.mpr (Or.inl ⟨⟨"P1", 2019, "BMW", "M3", none, false⟩, by simp, by decide⟩)

/-- C6: calculateNextRun adds one hour to now for the hourly frequency,
returns the next calendar day at exactly 02:00 local for daily (whatever
now's time of day), a timestamp seven days later at 02:00 for weekly, and
null for manual. -/
theorem calculateNextRun_frequencies (now : JSDate) :
    (∃ d, calculateNextRun "hourly" now = some d ∧
      toMs d = toMs now + (msPerHour : Int)) ∧
    calculateNextRun "daily" now = some ⟨now.day + 1, twoAM⟩ ∧
    calculateNextRun "weekly" now = some ⟨now.day + 7, twoAM⟩ ∧
    calculateNextRun "manual" now = none := by
  refine ⟨⟨addMs now msPerHour, rfl, ?_⟩, rfl, rfl, rfl⟩
  simp only [toMs, addMs, msPerDay, msPerHour]
  omega

/-- C7 counterexample: for a concrete hourly schedule whose triggered
sync throws as a whole, runScheduledSync leaves lastRun and nextRun
untouched (the schedule is not advanced by markScheduleRun), recording
only failed SyncJob rows — contradicting the claim that the next-run
advance happens even when the sync wholly failed. -/
theorem runScheduledSync_throw_no_advance :
    (runScheduledSync (some ⟨["brand1"]⟩) (.throws "Authentication failed")
        ⟨100, 0⟩ ⟨"s1", "hourly", none, some ⟨99, 0⟩⟩ []) =
      (⟨"s1", "hourly", none, some ⟨99, 0⟩⟩,
        [⟨some "s1", "failed", some "Authentication failed"⟩,
         ⟨some "s1", "failed", some "Authentication failed"⟩]) ∧
    markScheduleRun ⟨100, 0⟩ ⟨"s1", "hourly", none, some ⟨99, 0⟩⟩ ≠
      ⟨"s1", "hourly", none, some ⟨99, 0⟩⟩ := by
  exact ⟨rfl, by decide⟩

/-- C7 amended: when the triggered sync returns a result — however many
per-item failures the result records — runScheduledSync marks the
schedule as run (lastRun := now, nextRun recomputed from the frequency)
and the failure is visible only through the recorded SyncJob rows; but
when the sync throws as a whole, failed SyncJob rows are recorded and the
schedule's lastRun/nextRun are left unchanged, so the schedule stays due. -/
theorem runScheduledSync_advance_spec (cfg : Turn14Config) (res : SyncResult)
    (msg : String) (now : JSDate) (sched : SyncSchedule) (jobs : List SyncJobRec) :
    (runScheduledSync (some cfg) (.completes res) now sched jobs).1 =
      markScheduleRun now sched ∧
    (runScheduledSync (some cfg) (.completes res) now sched jobs).2 =
      jobs ++ [⟨some sched.sid, "completed", none⟩] ∧
    (runScheduledSync (some cfg) (.throws msg) now sched jobs).1 = sched ∧
    (runScheduledSync (some cfg) (.throws msg) now sched jobs).2 =
      jobs ++ [⟨some sched.sid, "failed", some msg⟩,
               ⟨some sched.sid, "failed", some msg⟩] := by
  refine ⟨rfl, rfl, rfl, ?_⟩
  simp [runScheduledSync, runSync]

/-- Helper: clearing the primary flag leaves no primary vehicle. -/
theorem countP_clearPrimary (vs : List GarageVehicle) :
    (clearPrimary vs).countP (fun v => v.isPrimary) = 0 := by
  simp [clearPrimary, List.countP_map, Function.comp_def]

/-- Helper: with pairwise-distinct vehicle ids, at most one vehicle of a
garage carries any given id. -/
theorem countP_key_le_one (vid : String) (vs : List GarageVehicle)
    (h : (vs.map (fun v => v.gvid)).Nodup) :
    vs.countP (fun v => v.gvid == vid) ≤ 1 := by
  induction vs with
  | nil => simp
  | cons a t ih =>
    simp only [List.map_cons, List.nodup_cons] at h
    by_cases ha : a.gvid == vid
    · have hz : t.countP (fun v => v.gvid == vid) = 0 := by
        rw [List.countP_eq_zero]
        intro v hv hvp
        apply h.1
        have hveq : v.gvid = a.gvid := by
          have hv1 : v.gvid = vid := by simpa using hvp
          have hv2 : a.gvid = vid := by simpa using ha
          rw [hv1, hv2]
        rw [← hveq]
        exact List.mem_map_of_mem (fun v => v.gvid) hv
      simp [List.countP_cons, ha, hz]
    · simpa [List.countP_cons, ha] using ih h.2

/-- C8: every garage write preserves the at-most-one-primary invariant —
addVehicle (including the automatic promotion of the first vehicle of an
empty garage, shown in the last conjunct) and updateVehicle both unset
the primary flag of every other vehicle before marking one primary. -/
theorem garage_single_primary_invariant (st : GarageState) (data : NewVehicleData)
    (vid : String) (u : VehicleUpdate)
    (h1 : atMostOnePrimary st.garage.vehicles)
    (h2 : (st.garage.vehicles.map (fun v => v.gvid)).Nodup) :
    atMostOnePrimary (addVehicle st data).1.garage.vehicles ∧
    atMostOnePrimary (updateVehicle st vid u).1.garage.vehicles ∧
    (st.garage.vehicles = [] → 0 < st.garage.maxVehicles →
      (addVehicle st data).1.garage.vehicles = [⟨data.gvid, true⟩]) := by
  refine ⟨?_, ?_, ?_⟩
  · unfold addVehicle
    by_cases hcap : st.garage.vehicles.length ≥ st.garage.maxVehicles
    · simpa [hcap] using h1
    · simp only [hcap, if_false, ite_not]
      by_cases hp : (st.garage.vehicles.length == 0 || data.isPrimary) = true
      · simp only [hp, if_true, if_pos]
        unfold atMostOnePrimary
        simp [List.countP_append, countP_clearPrimary, List.countP_cons]
      · simp only [hp]
        unfold atMostOnePrimary at h1 ⊢
        simp only [Bool.not_eq_true] at hp
        simp [hp, List.countP_append, List.countP_cons]
        simpa using h1
  · unfold updateVehicle
    cases hf : st.garage.vehicles.find? (fun v => v.gvid == vid) with
    | none => simpa [hf] using h1
    | some w =>
      simp only [hf]
      by_cases hpt : u.isPrimary = some true
      · rw [if_pos hpt]
        unfold atMostOnePrimary
        rw [List.map_map, List.countP_map]
        refine le_trans (List.countP_mono_left ?_) (countP_key_le_one vid st.garage.vehicles h2)
        intro v _ hv
        by_cases hid : (v.gvid == vid) = true
        · exact hid
        · exfalso
          have hid' : ¬ v.gvid = vid := by simpa using hid
          simp [Function.comp_def, hid'] at hv
      · rw [if_neg hpt]
        unfold atMostOnePrimary at h1 ⊢
        rw [List.countP_map]
        refine le_trans (List.countP_mono_left ?_) h1
        intro v _ hv
        simp only [Function.comp_def] at hv
        by_cases hid : (v.gvid == vid) = true
        · rw [if_pos hid] at hv
          cases hu : u.isPrimary with
          | none => simpa [applyUpdate, hu] using hv
          | some b =>
            cases b with
            | true => exact absurd hu hpt
            | false => simp [applyUpdate, hu] at hv
        · rwa [if_neg hid] at hv
  · intro hempty hmax
    unfold addVehicle
    simp [hempty, Nat.not_le.mpr hmax, clearPrimary]

/-- C8 witness. -/
theorem garage_single_primary_invariant_witness :
    atMostOnePrimary ((addVehicle ⟨⟨5, [⟨"v1", true⟩]⟩, []⟩ ⟨"v2", true⟩).1.garage.vehicles) ∧
    atMostOnePrimary ((updateVehicle ⟨⟨5, [⟨"v1", true⟩]⟩, []⟩ "v1" ⟨some true⟩).1.garage.vehicles) := by
  have h := garage_single_primary_invariant ⟨⟨5, [⟨"v1", true⟩]⟩, []⟩ ⟨"v2", true⟩
    "v1" ⟨some true⟩ (by decide) (by decide)
  exact ⟨h.1, h.2.1⟩

/-- C9: addVehicle on a garage at (or above) its maxVehicles limit fails
with the capacity error and leaves the whole garage state — vehicles and
reminders — unchanged; the schema default for maxVehicles is 5. -/
theorem addVehicle_capacity_rejection (st : GarageState) (data : NewVehicleData)
    (h : st.garage.vehicles.length ≥ st.garage.maxVehicles) :
    addVehicle st data = (st, .error (.capacityError st.garage.maxVehicles)) ∧
    defaultMaxVehicles = 5 := by
  refine ⟨?_, rfl⟩
  unfold addVehicle
  simp [h]

/-- Helper: the storefront price writes of the pricing loop are exactly
the changed items, in order, with the marked-up final price. -/
theorem syncPricingLoop_writes_eq (fetch : String → Except String (Option ℚ))
    (items : List TrackedProduct) : ∀ (store : List TrackedProduct)
      (writes : List (String × ℚ)) (res : SyncResult),
    (syncPricingLoop fetch items store writes res).2.1 =
      writes ++ items.filterMap (fun p =>
        match fetch p.sku with
        | .ok (some q) =>
            if pricingChanged p q then some (p.sku, pricingFinalPrice p q) else none
        | _ => none) := by
  induction items with
  | nil => intro store writes res; simp [syncPricingLoop]
  | cons p rest ih =>
    intro store writes res
    cases hf : fetch p.sku with
    | error msg => simp [syncPricingLoop, hf, ih]
    | ok payload =>
      cases payload with
      | none => simp [syncPricingLoop, hf, ih]
      | some q =>
        by_cases hc : pricingChanged p q = true
        · simp [syncPricingLoop, hf, hc, ih]
        · simp only [Bool.not_eq_true] at hc
          simp [syncPricingLoop, hf, hc, ih]

/-- C3: syncPricing issues a storefront price write exactly for the
products whose fetched price payload fails the drift test — the fetched
distributor price (with the source's falsy fallback to the stored
originalPrice when the fetched price is zero) differs from the stored
originalPrice, or the recomputed final price differs from the stored
currentPrice — and every written price is newPrice × (1 + markup/100);
concretely, over B200 (unchanged) and B201 (distributor price risen from
10 to 12 at 20% markup), B201's currentPrice becomes 72/5 = 14.40 and
exactly one write, for B201, is issued. -/
theorem syncPricing_drift_detection (cfg : Turn14Config)
    (fetch : String → Except String (Option ℚ)) (store : List TrackedProduct) :
    (∃ out, syncPricing (some cfg) fetch store = .ok out ∧
      out.2.1 = (activeProducts store).filterMap (fun p =>
        match fetch p.sku with
        | .ok (some q) =>
            if pricingChanged p q then
              some (p.sku, pricingNewPrice p q * (1 + p.priceMarkup / 100))
            else none
        | _ => none)) ∧
    (∀ (p : TrackedProduct) (q : ℚ), pricingChanged p q = true ↔
      (pricingNewPrice p q ≠ p.originalPrice ∨
        pricingNewPrice p q * (1 + p.priceMarkup / 100) ≠ p.currentPrice)) ∧
    syncPricing (some ⟨["brand"]⟩)
        (fun s => if s == "B200" then .ok (some 8) else .ok (some 12))
        [⟨"B200", 3, 8, 48/5, 20, "active", none⟩,
         ⟨"B201", 3, 10, 12, 20, "active", none⟩] =
      .ok ([⟨"B200", 3, 8, 48/5, 20, "active", none⟩,
            ⟨"B201", 3, 12, 72/5, 20, "active", none⟩],
           [("B201", 72/5)], ⟨2, 2, 2, 0, []⟩) := by
  refine ⟨⟨syncPricingLoop fetch (activeProducts store) store []
      ⟨(activeProducts store).length, 0, 0, 0, []⟩, rfl, ?_⟩, ?_, ?_⟩
  · rw [syncPricingLoop_writes_eq]
    simp only [List.nil_append]
    rfl
  · intro p q
    simp [pricingChanged, pricingFinalPrice, bne_iff_ne]
  · have h1 : ("B201" : String) ≠ "B200" := by decide
    have h2 : ("B200" : String) ≠ "B201" := by decide
    norm_num [syncPricing, activeProducts, syncPricingLoop, pricingChanged,
      pricingNewPrice, pricingFinalPrice, setProductPricing, List.filter, h1, h2]

/-- Helper: the item loop of syncNewProducts only appends records, every
appended record's SKU is outside the up-front dedup set, and distinctness
of the stored SKUs is preserved. -/
theorem newProductsItemLoop_extends (imp : String → Except String Unit)
    (markup : ℚ) (exSKUs : List String) (items : List FetchedProduct) :
    ∀ (store : List TrackedProduct) (res : SyncResult),
    ∃ ext, (newProductsItemLoop imp markup exSKUs items store res).1 = store ++ ext ∧
      (∀ r ∈ ext, ¬ r.sku ∈ exSKUs) ∧
      ((store.map (fun p => p.sku)).Nodup →
        (((store ++ ext).map (fun p => p.sku)).Nodup)) := by
  induction items with
  | nil =>
    intro store res
    exact ⟨[], by simp [newProductsItemLoop], by simp, by simp⟩
  | cons item rest ih =>
    intro store res
    by_cases hskip : item.pid ∈ exSKUs
    · obtain ⟨ext, h1, h2, h3⟩ :=
        ih store ({ res with processedItems := res.processedItems + 1 })
      exact ⟨ext, by simpa [newProductsItemLoop, hskip] using h1, h2, h3⟩
    · cases himp : imp item.pid with
      | error msg =>
        obtain ⟨ext, h1, h2, h3⟩ :=
          ih store ({ res with processedItems := res.processedItems + 1,
                               failedItems := res.failedItems + 1,
                               errors := res.errors ++ [(item.pid, msg)] })
        exact ⟨ext, by simpa [newProductsItemLoop, hskip, himp] using h1, h2, h3⟩
      | ok u =>
        by_cases hdup : ∃ x ∈ store, x.sku = item.pid
        · obtain ⟨ext, h1, h2, h3⟩ :=
            ih store ({ res with processedItems := res.processedItems + 1,
                                 failedItems := res.failedItems + 1,
                                 errors := res.errors ++
                                   [(item.pid, "Unique constraint failed on shop_turn14Sku")] })
          exact ⟨ext, by simpa [newProductsItemLoop, hskip, himp, hdup] using h1, h2, h3⟩
        · have hnotin : ¬ item.pid ∈ store.map (fun p => p.sku) := by
            intro hmem
            rcases List.mem_map.mp hmem with ⟨p, hp, hps⟩
            exact hdup ⟨p, hp, hps⟩
          obtain ⟨ext, h1, h2, h3⟩ :=
            ih (store ++ [mkTrackedProduct item markup])
              ({ res with processedItems := res.processedItems + 1,
                          successItems := res.successItems + 1 })
          refine ⟨mkTrackedProduct item markup :: ext, ?_, ?_, ?_⟩
          · rw [show store ++ mkTrackedProduct item markup :: ext =
              (store ++ [mkTrackedProduct item markup]) ++ ext by simp]
            simpa [newProductsItemLoop, hskip, himp, hdup] using h1
          · intro r hr
            rcases List.mem_cons.mp hr with hr | hr
            · rw [hr]; exact hskip
            · exact h2 r hr
          · intro hnd
            have hnd' : ((store ++ [mkTrackedProduct item markup]).map
                (fun p => p.sku)).Nodup := by
              simp only [List.map_append, List.map_cons, List.map_nil]
              rw [List.nodup_append]
              refine ⟨hnd, List.nodup_singleton _, ?_⟩
              intro a ha hb
              simp only [mkTrackedProduct, List.mem_singleton] at hb
              rw [hb] at ha
              exact hnotin ha
            have := h3 hnd'
            simpa [List.append_assoc] using this

/-- Helper: the brand loop of syncNewProducts composes the item loop's
extension property over all selected brands. -/
theorem newProductsBrandLoop_extends
    (brandItems : String → Except String (Option (List FetchedProduct)))
    (imp : String → Except String Unit) (markup : ℚ) (exSKUs : List String)
    (brands : List String) :
    ∀ (store : List TrackedProduct) (res : SyncResult),
    ∃ ext, (newProductsBrandLoop brandItems imp markup exSKUs brands store res).1 =
        store ++ ext ∧
      (∀ r ∈ ext, ¬ r.sku ∈ exSKUs) ∧
      ((store.map (fun p => p.sku)).Nodup →
        (((store ++ ext).map (fun p => p.sku)).Nodup)) := by
  induction brands with
  | nil =>
    intro store res
    exact ⟨[], by simp [newProductsBrandLoop], by simp, by simp⟩
  | cons b rest ih =>
    intro store res
    cases hb : brandItems b with
    | error msg =>
      obtain ⟨ext, h1, h2, h3⟩ := ih store { res with errors := res.errors ++ [(b, msg)] }
      exact ⟨ext, by simpa [newProductsBrandLoop, hb] using h1, h2, h3⟩
    | ok payload =>
      cases payload with
      | none =>
        obtain ⟨ext, h1, h2, h3⟩ := ih store res
        exact ⟨ext, by simpa [newProductsBrandLoop, hb] using h1, h2, h3⟩
      | some items =>
        obtain ⟨ext1, g1, g2, g3⟩ := newProductsItemLoop_extends imp markup exSKUs items
          store { res with totalItems := res.totalItems + items.length }
        obtain ⟨ext2, h1, h2, h3⟩ := ih (store ++ ext1)
          (newProductsItemLoop imp markup exSKUs items store
            { res with totalItems := res.totalItems + items.length }).2
        refine ⟨ext1 ++ ext2, ?_, ?_, ?_⟩
        · rw [← List.append_assoc]
          rw [← g1] at h1 ⊢
          simpa [newProductsBrandLoop, hb] using h1
        · intro r hr
          rcases List.mem_append.mp hr with hr | hr
          · exact g2 r hr
          · exact h2 r hr
        · intro hnd
          have := h3 (g3 hnd)
          simpa [List.append_assoc] using this

/-- C5: syncNewProducts only ever appends tracked products whose SKU was
not tracked when the batch started (the dedup set is the SKU set of the
store taken before the loops), it preserves distinctness of the per-shop
SKUs — so (shop, SKU) keeps identifying at most one tracked product — and
re-importing an already-tracked SKU leaves that SKU's records untouched. -/
theorem syncNewProducts_dedup (cfg : Turn14Config)
    (brandItems : String → Except String (Option (List FetchedProduct)))
    (imp : String → Except String Unit) (markup : ℚ)
    (store store' : List TrackedProduct) (res : SyncResult) (sku : String)
    (h : syncNewProducts (some cfg) brandItems imp markup store = .ok (store', res)) :
    (∃ ext, store' = store ++ ext ∧
      ∀ r ∈ ext, ¬ r.sku ∈ store.map (fun p => p.sku)) ∧
    ((store.map (fun p => p.sku)).Nodup → (store'.map (fun p => p.sku)).Nodup) ∧
    (sku ∈ store.map (fun p => p.sku) →
      store'.filter (fun p => p.sku == sku) = store.filter (fun p => p.sku == sku)) := by
  simp only [syncNewProducts] at h
  by_cases hemp : cfg.selectedBrands.isEmpty = true
  · rw [if_pos hemp] at h; exact absurd h (by simp)
  · rw [if_neg hemp] at h
    obtain ⟨ext, h1, h2, h3⟩ := newProductsBrandLoop_extends brandItems imp markup
      (store.map (fun p => p.sku)) cfg.selectedBrands store ⟨0, 0, 0, 0, []⟩
    have hstore : store' = store ++ ext := by
      have := congrArg (fun x => x.1) (Except.ok.inj h)
      simp only at this
      rw [← this, h1]
    refine ⟨⟨ext, hstore, h2⟩, ?_, ?_⟩
    · intro hnd
      rw [hstore]
      exact h3 hnd
    · intro hmem
      rw [hstore, List.filter_append]
      have hnil : ext.filter (fun p => p.sku == sku) = [] := by
        rw [List.filter_eq_nil_iff]
        intro r hr hrp
        have : r.sku = sku := by simpa using hrp
        rw [← this] at hmem
        exact h2 r hr hmem
      rw [hnil, List.append_nil]

/-- C5 witness: re-importing the already-tracked SKU A100 is a no-op on
the tracked-product set for that SKU. -/
theorem syncNewProducts_dedup_witness :
    ∃ store' res,
      syncNewProducts (some ⟨["b1"]⟩) (fun _ => .ok (some [⟨"A100", "b1", 10, 5⟩]))
        (fun _ => .ok ()) 0 [⟨"A100", 5, 10, 10, 0, "active", none⟩] =
          .ok (store', res) ∧
      store'.filter (fun p => p.sku == "A100") =
        [(⟨"A100", 5, 10, 10, 0, "active", none⟩ : TrackedProduct)].filter
          (fun p => p.sku == "A100") := by
  refine ⟨[⟨"A100", 5, 10, 10, 0, "active", none⟩], ⟨1, 1, 0, 0, []⟩, rfl, ?_⟩
  exact (syncNewProducts_dedup ⟨["b1"]⟩ (fun _ => .ok (some [⟨"A100", "b1", 10, 5⟩]))
    (fun _ => .ok ()) 0 [⟨"A100", 5, 10, 10, 0, "active", none⟩]
    [⟨"A100", 5, 10, 10, 0, "active", none⟩] ⟨1, 1, 0, 0, []⟩ "A100" rfl).2.2 (by simp)

/-- Helper: counter bookkeeping of the inventory loop — totalItems is
never touched, every item is processed exactly once, each processed item
is counted as success or failure, and the error list grows by exactly one
entry per failure. -/
theorem syncInventoryLoop_counts (fetch : String → Except String (Option Int))
    (items : List TrackedProduct) :
    ∀ (store : List TrackedProduct) (writes : List (String × Int)) (res : SyncResult),
    (syncInventoryLoop fetch items store writes res).2.2.totalItems = res.totalItems ∧
    (syncInventoryLoop fetch items store writes res).2.2.processedItems =
      res.processedItems + items.length ∧
    (syncInventoryLoop fetch items store writes res).2.2.successItems +
        (syncInventoryLoop fetch items store writes res).2.2.failedItems =
      res.successItems + res.failedItems + items.length ∧
    (syncInventoryLoop fetch items store writes res).2.2.errors.length +
        res.failedItems =
      res.errors.length + (syncInventoryLoop fetch items store writes res).2.2.failedItems := by
  induction items with
  | nil => intro store writes res; simp [syncInventoryLoop]
  | cons p rest ih =>
    intro store writes res
    cases hf : fetch p.sku with
    | error msg =>
      have h := ih (setProductError store p.sku msg) writes
        ({ res with processedItems := res.processedItems + 1,
                    failedItems := res.failedItems + 1,
                    errors := res.errors ++ [(p.sku, msg)] })
      simp only [syncInventoryLoop, hf] at h ⊢
      simp only [List.length_append, List.length_cons, List.length_nil] at h ⊢
      omega
    | ok payload =>
      cases payload with
      | none =>
        have h := ih store writes
          ({ res with processedItems := res.processedItems + 1,
                      successItems := res.successItems + 1 })
        simp only [syncInventoryLoop, hf] at h ⊢
        simp only [List.length_cons] at h ⊢
        omega
      | some q =>
        by_cases hq : (q == p.inventoryQuantity) = true
        · have h := ih store writes
            ({ res with processedItems := res.processedItems + 1,
                        successItems := res.successItems + 1 })
          simp only [syncInventoryLoop, hf, hq, if_true] at h ⊢
          simp only [List.length_cons] at h ⊢
          omega
        · have h := ih (setProductInventory store p.sku q) (writes ++ [(p.sku, q)])
            ({ res with processedItems := res.processedItems + 1,
                        successItems := res.successItems + 1 })
          simp only [syncInventoryLoop, hf, hq, Bool.false_eq_true, if_false] at h ⊢
          simp only [List.length_cons] at h ⊢
          omega

/-- Helper: counter bookkeeping of the pricing loop — identical shape to
the inventory loop: totalItems untouched, one processed per item, each
item a success or a failure, one error entry per failure. -/
theorem syncPricingLoop_counts (fetch : String → Except String (Option ℚ))
    (items : List TrackedProduct) :
    ∀ (store : List TrackedProduct) (writes : List (String × ℚ)) (res : SyncResult),
    (syncPricingLoop fetch items store writes res).2.2.totalItems = res.totalItems ∧
    (syncPricingLoop fetch items store writes res).2.2.processedItems =
      res.processedItems + items.length ∧
    (syncPricingLoop fetch items store writes res).2.2.successItems +
        (syncPricingLoop fetch items store writes res).2.2.failedItems =
      res.successItems + res.failedItems + items.length ∧
    (syncPricingLoop fetch items store writes res).2.2.errors.length +
        res.failedItems =
      res.errors.length + (syncPricingLoop fetch items store writes res).2.2.failedItems := by
  induction items with
  | nil => intro store writes res; simp [syncPricingLoop]
  | cons p rest ih =>
    intro store writes res
    cases hf : fetch p.sku with
    | error msg =>
      have h := ih (setProductError store p.sku msg) writes
        ({ res with processedItems := res.processedItems + 1,
                    failedItems := res.failedItems + 1,
                    errors := res.errors ++ [(p.sku, msg)] })
      simp only [syncPricingLoop, hf] at h ⊢
      simp only [List.length_append, List.length_cons, List.length_nil] at h ⊢
      omega
    | ok payload =>
      cases payload with
      | none =>
        have h := ih store writes
          ({ res with processedItems := res.processedItems + 1,
                      successItems := res.successItems + 1 })
        simp only [syncPricingLoop, hf] at h ⊢
        simp only [List.length_cons] at h ⊢
        omega
      | some q =>
        by_cases hq : pricingChanged p q = true
        · have h := ih
            (setProductPricing store p.sku (pricingNewPrice p q) (pricingFinalPrice p q))
            (writes ++ [(p.sku, pricingFinalPrice p q)])
            ({ res with processedItems := res.processedItems + 1,
                        successItems := res.successItems + 1 })
          simp only [syncPricingLoop, hf, hq, if_true] at h ⊢
          simp only [List.length_cons] at h ⊢
          omega
        · have h := ih store writes
            ({ res with processedItems := res.processedItems + 1,
                        successItems := res.successItems + 1 })
          simp only [Bool.not_eq_true] at hq
          simp only [syncPricingLoop, hf, hq, Bool.false_eq_true, if_false] at h ⊢
          simp only [List.length_cons] at h ⊢
          omega

/-- Helper: counter bookkeeping of the new-product item loop — every
item (skipped or not) is processed exactly once and the error list grows
by exactly one entry per item-level failure, so a per-item throw never
stops the loop. -/
theorem newProductsItemLoop_counts (imp : String → Except String Unit)
    (markup : ℚ) (exSKUs : List String) (items : List FetchedProduct) :
    ∀ (store : List TrackedProduct) (res : SyncResult),
    (newProductsItemLoop imp markup exSKUs items store res).2.processedItems =
      res.processedItems + items.length ∧
    (newProductsItemLoop imp markup exSKUs items store res).2.errors.length +
        res.failedItems =
      res.errors.length +
        (newProductsItemLoop imp markup exSKUs items store res).2.failedItems := by
  induction items with
  | nil => intro store res; simp [newProductsItemLoop]
  | cons item rest ih =>
    intro store res
    by_cases hskip : exSKUs.contains item.pid = true
    · have h := ih store ({ res with processedItems := res.processedItems + 1 })
      simp only [newProductsItemLoop, hskip, if_true] at h ⊢
      simp only [List.length_cons] at h ⊢
      omega
    · have hskip' : exSKUs.contains item.pid = false := by simpa using hskip
      cases himp : imp item.pid with
      | error msg =>
        have h := ih store
          ({ res with processedItems := res.processedItems + 1,
                      failedItems := res.failedItems + 1,
                      errors := res.errors ++ [(item.pid, msg)] })
        simp only [newProductsItemLoop, hskip', Bool.false_eq_true, if_false, himp] at h ⊢
        simp only [List.length_append, List.length_cons, List.length_nil] at h ⊢
        omega
      | ok u =>
        by_cases hdup : (store.any fun q => q.sku == item.pid) = true
        · have h := ih store
            ({ res with processedItems := res.processedItems + 1,
                        failedItems := res.failedItems + 1,
                        errors := res.errors ++
                          [(item.pid, "Unique constraint failed on shop_turn14Sku")] })
          simp only [newProductsItemLoop, hskip', Bool.false_eq_true, if_false, himp,
            hdup, if_true] at h ⊢
          simp only [List.length_append, List.length_cons, List.length_nil] at h ⊢
          omega
        · have hdup' : (store.any fun q => q.sku == item.pid) = false := by simpa using hdup
          have h := ih (store ++ [mkTrackedProduct item markup])
            ({ res with processedItems := res.processedItems + 1,
                        successItems := res.successItems + 1 })
          simp only [newProductsItemLoop, hskip', Bool.false_eq_true, if_false, himp,
            hdup'] at h ⊢
          simp only [List.length_cons] at h ⊢
          omega

/-- Helper: counter bookkeeping of the compatibility bulk loop. -/
theorem bulkSyncLoop_counts (config : Option Turn14Config)
    (store : List TrackedProduct)
    (fetch : String → Except String (Option (List FetchedCompat)))
    (items : List TrackedProduct) :
    ∀ (edges : List CompatEdge) (res : BulkCompatResult),
    (bulkSyncLoop config store fetch items edges res).2.processed =
      res.processed + items.length ∧
    (bulkSyncLoop config store fetch items edges res).2.successful +
        (bulkSyncLoop config store fetch items edges res).2.failed =
      res.successful + res.failed + items.length ∧
    (bulkSyncLoop config store fetch items edges res).2.errors.length + res.failed =
      res.errors.length + (bulkSyncLoop config store fetch items edges res).2.failed := by
  induction items with
  | nil => intro edges res; simp [bulkSyncLoop]
  | cons p rest ih =>
    intro edges res
    cases hs : syncProductCompatibility config store (fetch p.sku) edges p.sku with
    | ok out =>
      have h := ih out.1
        ({ res with processed := res.processed + 1, successful := res.successful + 1 })
      simp only [bulkSyncLoop, hs] at h ⊢
      simp only [List.length_cons] at h ⊢
      omega
    | error msg =>
      have h := ih edges
        ({ res with processed := res.processed + 1, failed := res.failed + 1,
                    errors := res.errors ++ [(p.sku, msg)] })
      simp only [bulkSyncLoop, hs] at h ⊢
      simp only [List.length_append, List.length_cons, List.length_nil] at h ⊢
      omega

/-- C2 counterexample: a compatibility bulk sync run with the Turn14
configuration missing does not throw before any item — it returns a
result object in which every item failed — and the failed item's tracked
record keeps syncStatus active rather than being set to error. -/
theorem bulkSyncCompatibility_no_config_counterexample :
    bulkSyncCompatibility none [⟨"A1", 0, 10, 12, 20, "active", none⟩]
        (fun _ => .ok none) 10 [] =
      ([⟨"A1", 0, 10, 12, 20, "active", none⟩], [],
        ⟨1, 0, 1, [("A1", "Turn 14 configuration not found")]⟩) := by
  rfl

/-- C2 amended: per-item exceptions in all four batch syncs are caught
at the item boundary, appended to the result's error list (one entry per
failed item; the source applies no length cap), and processing continues
past the failure — the inventory and pricing batches mark the failed
item's syncStatus error, while new-product sync (the record does not
exist yet) and the compatibility bulk sync never touch any TrackedProduct
row; a batch returns a result object rather than throwing, except that a
missing configuration makes inventory, pricing and new-product sync throw
before any item and an empty selected-brand set makes new-product sync
throw before any item, whereas the compatibility bulk sync returns a
result even with no configuration (each item failing individually). -/
theorem batch_per_item_isolation (cfg : Turn14Config)
    (fetchI : String → Except String (Option Int))
    (fetchP : String → Except String (Option ℚ)) (store : List TrackedProduct)
    (p : TrackedProduct) (item : FetchedProduct) (msg : String)
    (brandItems : String → Except String (Option (List FetchedProduct)))
    (imp : String → Except String Unit) (markup : ℚ)
    (fetchC : String → Except String (Option (List FetchedCompat)))
    (limit : Nat) (edges : List CompatEdge)
    (hfetch : fetchI p.sku = .error msg) (hfetchP : fetchP p.sku = .error msg)
    (hstat : p.syncStatus = "active")
    (hitem : ¬ item.pid ∈ store.map (fun q => q.sku))
    (himp : imp item.pid = .error msg) :
    syncInventory none fetchI store = .error "Turn 14 configuration not found" ∧
    syncPricing none fetchP store = .error "Turn 14 configuration not found" ∧
    syncNewProducts none brandItems imp markup store =
      .error "Turn 14 configuration not found" ∧
    syncNewProducts (some ⟨[]⟩) brandItems imp markup store =
      .error "No brands selected for product sync" ∧
    (∃ out, syncInventory (some cfg) fetchI store = .ok out ∧
      out.2.2.totalItems = (activeProducts store).length ∧
      out.2.2.processedItems = out.2.2.totalItems ∧
      out.2.2.successItems + out.2.2.failedItems = out.2.2.processedItems ∧
      out.2.2.errors.length = out.2.2.failedItems) ∧
    (∃ out, syncPricing (some cfg) fetchP store = .ok out ∧
      out.2.2.totalItems = (activeProducts store).length ∧
      out.2.2.processedItems = out.2.2.totalItems ∧
      out.2.2.successItems + out.2.2.failedItems = out.2.2.processedItems ∧
      out.2.2.errors.length = out.2.2.failedItems) ∧
    syncInventory (some cfg) fetchI [p] =
      .ok ([{ p with syncStatus := "error", syncErrors := some msg }], [],
        ⟨1, 1, 0, 1, [(p.sku, msg)]⟩) ∧
    syncPricing (some cfg) fetchP [p] =
      .ok ([{ p with syncStatus := "error", syncErrors := some msg }], [],
        ⟨1, 1, 0, 1, [(p.sku, msg)]⟩) ∧
    (∀ (exSKUs : List String) (items : List FetchedProduct)
        (store0 : List TrackedProduct) (res : SyncResult),
      (newProductsItemLoop imp markup exSKUs items store0 res).2.processedItems =
        res.processedItems + items.length ∧
      (newProductsItemLoop imp markup exSKUs items store0 res).2.errors.length +
          res.failedItems =
        res.errors.length +
          (newProductsItemLoop imp markup exSKUs items store0 res).2.failedItems) ∧
    syncNewProducts (some ⟨["b1"]⟩) (fun _ => .ok (some [item])) imp markup store =
      .ok (store, ⟨1, 1, 0, 1, [(item.pid, msg)]⟩) ∧
    (∀ config : Option Turn14Config,
      (bulkSyncCompatibility config store fetchC limit edges).1 = store ∧
      (bulkSyncCompatibility config store fetchC limit edges).2.2.processed =
        ((activeProducts store).take limit).length ∧
      (bulkSyncCompatibility config store fetchC limit edges).2.2.successful +
          (bulkSyncCompatibility config store fetchC limit edges).2.2.failed =
        (bulkSyncCompatibility config store fetchC limit edges).2.2.processed ∧
      (bulkSyncCompatibility config store fetchC limit edges).2.2.errors.length =
        (bulkSyncCompatibility config store fetchC limit edges).2.2.failed) := by
  refine ⟨rfl, rfl, rfl, rfl, ?_, ?_, ?_, ?_, ?_, ?_, ?_⟩
  · refine ⟨syncInventoryLoop fetchI (activeProducts store) store []
      ⟨(activeProducts store).length, 0, 0, 0, []⟩, rfl, ?_⟩
    have h := syncInventoryLoop_counts fetchI (activeProducts store) store []
      ⟨(activeProducts store).length, 0, 0, 0, []⟩
    simp only [List.length_nil] at h
    omega
  · refine ⟨syncPricingLoop fetchP (activeProducts store) store []
      ⟨(activeProducts store).length, 0, 0, 0, []⟩, rfl, ?_⟩
    have h := syncPricingLoop_counts fetchP (activeProducts store) store []
      ⟨(activeProducts store).length, 0, 0, 0, []⟩
    simp only [List.length_nil] at h
    omega
  · have hact : activeProducts [p] = [p] := by
      simp [activeProducts, hstat]
    simp only [syncInventory, hact]
    simp [syncInventoryLoop, hfetch, setProductError]
  · have hact : activeProducts [p] = [p] := by
      simp [activeProducts, hstat]
    simp only [syncPricing, hact]
    simp [syncPricingLoop, hfetchP, setProductError]
  · intro exSKUs items store0 res
    exact newProductsItemLoop_counts imp markup exSKUs items store0 res
  · simp [syncNewProducts, newProductsBrandLoop, newProductsItemLoop, hitem, himp]
  · intro config
    refine ⟨rfl, ?_⟩
    have h := bulkSyncLoop_counts config store fetchC ((activeProducts store).take limit)
      edges ⟨0, 0, 0, []⟩
    simp only [List.length_nil] at h
    have hbulk : (bulkSyncCompatibility config store fetchC limit edges).2.2 =
        (bulkSyncLoop config store fetchC ((activeProducts store).take limit)
          edges ⟨0, 0, 0, []⟩).2 := rfl
    rw [hbulk]
    omega

/-- C2 witness: a one-item inventory batch whose distributor call throws
returns a full result with the item recorded as failed and marked in
error; the theorem is applied at concrete inputs that also discharge the
pricing and new-product hypotheses. -/
theorem batch_per_item_isolation_witness :
    syncInventory (some ⟨["b1"]⟩) (fun _ => .error "boom")
        [⟨"A1", 0, 10, 12, 20, "active", none⟩] =
      .ok ([⟨"A1", 0, 10, 12, 20, "error", some "boom"⟩], [],
        ⟨1, 1, 0, 1, [("A1", "boom")]⟩) := by
  have h := batch_per_item_isolation ⟨["b1"]⟩ (fun _ => .error "boom")
    (fun _ => .error "boom") [⟨"A1", 0, 10, 12, 20, "active", none⟩]
    ⟨"A1", 0, 10, 12, 20, "active", none⟩ ⟨"NEW1", "b1", 10, 5⟩ "boom"
    (fun _ => .ok none) (fun _ => .error "boom") 0 (fun _ => .ok none) 0 []
    rfl rfl rfl (by simp) rfl
  exact h.2.2.2.2.2.2.1

/-- Helper: edges of other products are inert in the insert loop — the
unique key is scoped to the product, so they collide with nothing and the
loop only appends after them. -/
theorem insertCompatLoop_append (sku : String) (items : List FetchedCompat) :
    ∀ (c d : List CompatEdge) (processed created : Nat),
    (∀ e ∈ c, (e.sku == sku) = false) →
    insertCompatLoop sku items (c ++ d) processed created =
      (c ++ (insertCompatLoop sku items d processed created).1,
       (insertCompatLoop sku items d processed created).2) := by
  induction items with
  | nil => intro c d processed created hc; simp [insertCompatLoop]
  | cons r rest ih =>
    intro c d processed created hc
    have hcany : c.any (fun e => e.sku == sku && compatKey e == rowKey r) = false := by
      rw [List.any_eq_false]
      intro e he
      simp [hc e he]
    simp only [insertCompatLoop, List.any_append, hcany, Bool.false_or]
    by_cases hd : d.any (fun e => e.sku == sku && compatKey e == rowKey r) = true
    · simp only [hd, if_true]
      exact ih c d processed created hc
    · simp only [Bool.not_eq_true] at hd
      simp only [hd, Bool.false_eq_true, if_false]
      rw [show (c ++ d) ++ [toEdge sku r] = c ++ (d ++ [toEdge sku r]) from by simp]
      exact ih c (d ++ [toEdge sku r]) (processed + 1) (created + 1) hc

/-- Helper: every edge coming out of the insert loop over an all-own-sku
accumulator belongs to the synced product. -/
theorem insertCompatLoop_sku_all (sku : String) (items : List FetchedCompat) :
    ∀ (d : List CompatEdge) (processed created : Nat),
    (∀ e ∈ d, e.sku = sku) →
    ∀ e ∈ (insertCompatLoop sku items d processed created).1, e.sku = sku := by
  induction items with
  | nil => intro d _ _ hd; simpa [insertCompatLoop] using hd
  | cons r rest ih =>
    intro d processed created hd
    simp only [insertCompatLoop]
    by_cases hc : d.any (fun e => e.sku == sku && compatKey e == rowKey r) = true
    · simp only [hc, if_true]
      exact ih d _ _ hd
    · simp only [Bool.not_eq_true] at hc
      simp only [hc, Bool.false_eq_true, if_false]
      refine ih (d ++ [toEdge sku r]) _ _ ?_
      intro e he
      rcases List.mem_append.mp he with he | he
      · exact hd e he
      · simp only [List.mem_singleton] at he
        rw [he]; rfl

/-- Helper: with pairwise-distinct natural keys and no collision against
the accumulator, the insert loop appends exactly the fetched rows. -/
theorem insertCompatLoop_all_inserted (sku : String) (items : List FetchedCompat) :
    ∀ (d : List CompatEdge) (processed created : Nat),
    (∀ e ∈ d, e.sku = sku) →
    List.Pairwise (fun a b => rowKey a ≠ rowKey b) items →
    (∀ r ∈ items, ∀ e ∈ d, ¬ compatKey e = rowKey r) →
    (insertCompatLoop sku items d processed created).1 =
      d ++ items.map (toEdge sku) := by
  induction items with
  | nil => intro d _ _ _ _ _; simp [insertCompatLoop]
  | cons r rest ih =>
    intro d processed created hd hp hdisj
    have hany : d.any (fun e => e.sku == sku && compatKey e == rowKey r) = false := by
      rw [List.any_eq_false]
      intro e he
      have := hdisj r (by simp) e he
      simp [this]
    simp only [insertCompatLoop, hany, Bool.false_eq_true, if_false]
    have hd' : ∀ e ∈ d ++ [toEdge sku r], e.sku = sku := by
      intro e he
      rcases List.mem_append.mp he with he | he
      · exact hd e he
      · simp only [List.mem_singleton] at he
        rw [he]; rfl
    have hdisj' : ∀ r' ∈ rest, ∀ e ∈ d ++ [toEdge sku r], ¬ compatKey e = rowKey r' := by
      intro r' hr' e he
      rcases List.mem_append.mp he with he | he
      · exact hdisj r' (List.mem_cons_of_mem _ hr') e he
      · simp only [List.mem_singleton] at he
        rw [he]
        have hne : rowKey r ≠ rowKey r' := (List.pairwise_cons.mp hp).1 r' hr'
        simpa [compatKey, rowKey, toEdge] using hne
    rw [ih (d ++ [toEdge sku r]) (processed + 1) (created + 1) hd'
      (List.pairwise_cons.mp hp).2 hdisj']
    simp

/-- C4 counterexample: when the distributor response carries no items
field, syncProductCompatibility returns without deleting the product's
existing edges, so the resulting edge set (still the old one) is not the
fetched set (empty) — the delete-then-insert contract does not hold for
every SKU and response. -/
theorem syncProductCompatibility_missing_items_keeps_edges :
    syncProductCompatibility (some ⟨["b1"]⟩) [⟨"S1", 0, 10, 12, 20, "active", none⟩]
        (.ok none) [⟨"S1", 2020, "Honda", "Civic", none, false⟩] "S1" =
      .ok ([⟨"S1", 2020, "Honda", "Civic", none, false⟩], ⟨0, 0, 0⟩) ∧
    ([⟨"S1", 2020, "Honda", "Civic", none, false⟩] : List CompatEdge) ≠ [] := by
  exact ⟨rfl, by decide⟩

/-- C4 amended: syncProductCompatibility is idempotent — rerunning it on
its own output with unchanged distributor data returns the same edges and
counters — and when the response carries an items list with pairwise
distinct natural keys, the product's edges afterwards are exactly the
fetched rows while every other product's edges are untouched; a response
without an items list leaves the edges as they were (see the
counterexample). -/
theorem syncProductCompatibility_replace_idempotent (cfg : Turn14Config)
    (store : List TrackedProduct)
    (fetch : Except String (Option (List FetchedCompat)))
    (edges : List CompatEdge) (sku : String) (items : List FetchedCompat)
    (out : List CompatEdge × CompatSyncCounts)
    (h : syncProductCompatibility (some cfg) store fetch edges sku = .ok out) :
    syncProductCompatibility (some cfg) store fetch out.1 sku = .ok out ∧
    (fetch = .ok (some items) →
      List.Pairwise (fun a b => rowKey a ≠ rowKey b) items →
      out.1.filter (fun e => e.sku == sku) = items.map (toEdge sku) ∧
      out.1.filter (fun e => !(e.sku == sku)) =
        edges.filter (fun e => !(e.sku == sku))) := by
  have hpres : store.any (fun p => p.sku == sku) = true := by
    by_contra hnp
    simp only [Bool.not_eq_true] at hnp
    simp [syncProductCompatibility, hnp] at h
  cases fetch with
  | error msg => simp [syncProductCompatibility, hpres] at h
  | ok payload =>
    cases payload with
    | none =>
      simp only [syncProductCompatibility, hpres, if_true] at h ⊢
      have hout : out = (edges, ⟨0, 0, 0⟩) := by
        cases h' : out with
        | mk a b => rw [h'] at h; exact (Except.ok.inj h).symm ▸ rfl
      subst hout
      exact ⟨rfl, fun hfe => by cases hfe⟩
    | some its =>
      have hcl : ∀ e ∈ edges.filter (fun e => !(e.sku == sku)), (e.sku == sku) = false := by
        intro e he
        have := List.of_mem_filter he
        simpa using this
      have happ := insertCompatLoop_append sku its
        (edges.filter (fun e => !(e.sku == sku))) [] 0 0 hcl
      simp only [List.append_nil] at happ
      have hout : out =
          ((edges.filter (fun e => !(e.sku == sku))) ++
             (insertCompatLoop sku its [] 0 0).1,
           ⟨(insertCompatLoop sku its [] 0 0).2.1,
            (insertCompatLoop sku its [] 0 0).2.2, 0⟩) := by
        simp only [syncProductCompatibility, hpres, if_true, happ] at h
        exact (Except.ok.inj h).symm
      have hins : ∀ e ∈ (insertCompatLoop sku its [] 0 0).1, e.sku = sku :=
        insertCompatLoop_sku_all sku its [] 0 0 (by simp)
      have hfs : (edges.filter (fun e => !(e.sku == sku))).filter
          (fun e => !(e.sku == sku)) = edges.filter (fun e => !(e.sku == sku)) :=
        List.filter_eq_self.mpr (fun e he => by simpa using hcl e he)
      have hfn : ((insertCompatLoop sku its [] 0 0).1).filter
          (fun e => !(e.sku == sku)) = [] :=
        List.filter_eq_nil_iff.mpr (fun e he => by simp [hins e he])
      have hfilter1 : out.1.filter (fun e => !(e.sku == sku)) =
          edges.filter (fun e => !(e.sku == sku)) := by
        rw [hout]
        simp only [List.filter_append, hfs, hfn, List.append_nil]
      refine ⟨?_, ?_⟩
      · simp only [syncProductCompatibility, hpres, if_true]
        rw [hfilter1, happ]
        rw [hout]
      · intro hfe hpair
        cases hfe
        refine ⟨?_, hfilter1⟩
        have hall := insertCompatLoop_all_inserted sku items [] 0 0
          (by simp) hpair (by simp)
        have hgs : (edges.filter (fun e => !(e.sku == sku))).filter
            (fun e => e.sku == sku) = [] :=
          List.filter_eq_nil_iff.mpr (fun e he => by simp [hcl e he])
        have hg2 : ((insertCompatLoop sku items [] 0 0).1).filter
            (fun e => e.sku == sku) = (insertCompatLoop sku items [] 0 0).1 :=
          List.filter_eq_self.mpr (fun e he => by simp [hins e he])
        rw [hout]
        simp only [List.filter_append, hgs, hg2, List.nil_append]
        simpa using hall

/-- C4 witness: rerunning the compatibility sync on its own output with
the same one-row distributor response returns the same edge set and
counters. -/
theorem syncProductCompatibility_replace_idempotent_witness :
    syncProductCompatibility (some ⟨["b1"]⟩) [⟨"S1", 0, 10, 12, 20, "active", none⟩]
        (.ok (some [⟨2020, "Honda", "Civic", none, false⟩]))
        [⟨"S1", 2020, "Honda", "Civic", none, false⟩] "S1" =
      .ok ([⟨"S1", 2020, "Honda", "Civic", none, false⟩], ⟨1, 1, 0⟩) := by
  have h := syncProductCompatibility_replace_idempotent ⟨["b1"]⟩
    [⟨"S1", 0, 10, 12, 20, "active", none⟩]
    (.ok (some [⟨2020, "Honda", "Civic", none, false⟩])) [] "S1"
    [⟨2020, "Honda", "Civic", none, false⟩]
    ([⟨"S1", 2020, "Honda", "Civic", none, false⟩], ⟨1, 1, 0⟩) rfl
  exact h.1

/-- C10 counterexample: an empty items array is truthy in the source's
guard, so the delete-all step still runs — a previously stored edge is
erased even though the distributor returned no compatibility items, while
the returned counters are still zero. -/
theorem syncProductCompatibility_empty_array_erases :
    syncProductCompatibility (some ⟨["b1"]⟩) [⟨"S2", 0, 10, 12, 20, "active", none⟩]
        (.ok (some [])) [⟨"S2", 2021, "Ford", "F150", none, false⟩] "S2" =
      .ok ([], ⟨0, 0, 0⟩) ∧
    ([⟨"S2", 2021, "Ford", "F150", none, false⟩] : List CompatEdge) ≠ [] := by
  exact ⟨rfl, by decide⟩

/-- C10 amended: syncProductCompatibility returns zero counts in both
no-item cases, but the frame differs — a response with no items field
leaves the product's edges entirely untouched, whereas a response whose
items field is an empty array reaches the delete-all step and erases
every edge of the product. -/
theorem syncProductCompatibility_empty_fetch_frame (cfg : Turn14Config)
    (store : List TrackedProduct) (edges : List CompatEdge) (sku : String)
    (hp : store.any (fun p => p.sku == sku) = true) :
    syncProductCompatibility (some cfg) store (.ok none) edges sku =
      .ok (edges, ⟨0, 0, 0⟩) ∧
    syncProductCompatibility (some cfg) store (.ok (some [])) edges sku =
      .ok (edges.filter (fun e => !(e.sku == sku)), ⟨0, 0, 0⟩) := by
  constructor
  · simp [syncProductCompatibility, hp]
  · simp [syncProductCompatibility, hp, insertCompatLoop]

/-- C10 witness: with the product present, a response without an items
field leaves a one-edge store untouched, and an empty items array clears
the product's edges. -/
theorem syncProductCompatibility_empty_fetch_frame_witness :
    syncProductCompatibility (some ⟨["b2"]⟩) [⟨"S3", 0, 10, 12, 20, "active", none⟩]
        (.ok none) [⟨"S3", 2022, "Tesla", "Model 3", none, false⟩] "S3" =
      .ok ([⟨"S3", 2022, "Tesla", "Model 3", none, false⟩], ⟨0, 0, 0⟩) := by
  exact (syncProductCompatibility_empty_fetch_frame ⟨["b2"]⟩
    [⟨"S3", 0, 10, 12, 20, "active", none⟩]
    [⟨"S3", 2022, "Tesla", "Model 3", none, false⟩] "S3" (by decide)).1

/-- C9 witness: a garage already holding five vehicles under the default
limit of five rejects a sixth vehicle and is left unchanged. -/
theorem addVehicle_capacity_rejection_witness :
    addVehicle ⟨⟨defaultMaxVehicles,
        [⟨"v1", true⟩, ⟨"v2", false⟩, ⟨"v3", false⟩, ⟨"v4", false⟩, ⟨"v5", false⟩]⟩, []⟩
        ⟨"v6", false⟩ =
      (⟨⟨defaultMaxVehicles,
        [⟨"v1", true⟩, ⟨"v2", false⟩, ⟨"v3", false⟩, ⟨"v4", false⟩, ⟨"v5", false⟩]⟩, []⟩,
       .error (.capacityError defaultMaxVehicles)) := by
  exact (addVehicle_capacity_rejection _ ⟨"v6", false⟩ (by decide)).1

end GrowthApp
